import Mathlib

/-!
Verification of the questionnaire answer-normalization and persistence core
of the back-webSaludMental repository.

JSON-like JavaScript values are shallowly embedded as the inductive type
`JSValue`; JavaScript coercions (`String(x)`, truthiness, `JSON.stringify`)
are modelled as total functions on this type (they are total on plain data
values, which is all this code ever handles).  Numbers are modelled as
integers.  JSON text columns are modelled by their parse outcome
(`StoredText`): a text either parses to a value or fails to parse.
-/

/-- A JavaScript/JSON data value: `null`, `undefined`, booleans, (integral)
numbers, strings, objects (association lists in property order) and arrays. -/
inductive JSValue where
  | null : JSValue
  | undefined : JSValue
  | bool : Bool → JSValue
  | num : Int → JSValue
  | str : String → JSValue
  | obj : List (String × JSValue) → JSValue
  | arr : List JSValue → JSValue
deriving Repr

/-- JavaScript truthiness: `null`, `undefined`, `false`, `0` and `""` are
falsy; every object and array is truthy. -/
def truthy : JSValue → Bool
  | .null => false
  | .undefined => false
  | .bool b => b
  | .num n => decide (n ≠ 0)
  | .str s => decide (s ≠ "")
  | .obj _ => true
  | .arr _ => true

/-- `v === null || v === undefined`. -/
def isNullish : JSValue → Bool
  | .null => true
  | .undefined => true
  | _ => false

/-- `typeof v === 'object'` (true for `null`, objects and arrays). -/
def isObjTypeof : JSValue → Bool
  | .null => true
  | .obj _ => true
  | .arr _ => true
  | _ => false

/-- `typeof v === 'string'`. -/
def isStrV : JSValue → Bool
  | .str _ => true
  | _ => false

/-- Property read `a.k`: a missing property yields `undefined`; only objects
carry properties in this model. -/
def getF (a : JSValue) (k : String) : JSValue :=
  match a with
  | .obj fs =>
    match fs.find? (fun p => p.1 == k) with
    | some p => p.2
    | none => .undefined
  | _ => .undefined

/-- Property write `a[k] = v`: overwrites the first binding of `k` in place or
appends a new one.  On non-objects the assignment has no effect on the value's
JSON serialization (assigning a property to a primitive is a silent no-op, and
`JSON.stringify` drops non-index properties of arrays), so it is modelled as
the identity there. -/
def setAssoc : List (String × JSValue) → String → JSValue → List (String × JSValue)
  | [], k, v => [(k, v)]
  | (k', v') :: rest, k, v =>
    if k' == k then (k, v) :: rest else (k', v') :: setAssoc rest k v

def setF (a : JSValue) (k : String) (v : JSValue) : JSValue :=
  match a with
  | .obj fs => .obj (setAssoc fs k v)
  | other => other

/-- `Object.values(a)` for objects and arrays (the only shapes it is applied
to in the embedded code). -/
def objValues : JSValue → List JSValue
  | .obj fs => fs.map (fun p => p.2)
  | .arr xs => xs
  | _ => []

mutual

/-- JavaScript `String(v)` on data values: objects stringify to
`"[object Object]"`, arrays to their comma-joined elements (with `null` and
`undefined` elements rendered as the empty string). -/
def jsToString : JSValue → String
  | .null => "null"
  | .undefined => "undefined"
  | .bool b => if b then "true" else "false"
  | .num n => toString n
  | .str s => s
  | .obj _ => "[object Object]"
  | .arr xs => String.intercalate "," (jsArrElems xs)

def jsArrElems : List JSValue → List String
  | [] => []
  | v :: vs => jsArrElem v :: jsArrElems vs

def jsArrElem : JSValue → String
  | .null => ""
  | .undefined => ""
  | .bool b => if b then "true" else "false"
  | .num n => toString n
  | .str s => s
  | .obj _ => "[object Object]"
  | .arr xs => String.intercalate "," (jsArrElems xs)

end

/-- Extract the string of a string value (total; only applied where the value
is a string by construction). -/
def asStr : JSValue → String
  | .str s => s
  | _ => ""

def hexDigit (n : Nat) : Char :=
  if n < 10 then Char.ofNat (48 + n) else Char.ofNat (87 + n)

/-- JSON string-character escaping as performed by `JSON.stringify`. -/
def jsonEscapeChar (c : Char) : String :=
  if c = '"' then "\\\""
  else if c = '\\' then "\\\\"
  else if c = '\n' then "\\n"
  else if c = '\r' then "\\r"
  else if c = '\t' then "\\t"
  else if c.toNat < 32 then
    "\\u00" ++ String.mk [hexDigit (c.toNat / 16), hexDigit (c.toNat % 16)]
  else String.singleton c

def jsonQuote (s : String) : String :=
  "\"" ++ String.join (s.toList.map jsonEscapeChar) ++ "\""

mutual

/-- `JSON.stringify(v)`: returns `none` for `undefined` (where JavaScript
returns the non-string `undefined`); inside objects, `undefined`-valued
properties are omitted; inside arrays they serialize as `null`. -/
def jsonStringify : JSValue → Option String
  | .null => some "null"
  | .undefined => none
  | .bool b => some (if b then "true" else "false")
  | .num n => some (toString n)
  | .str s => some (jsonQuote s)
  | .arr xs => some ("[" ++ String.intercalate "," (jsonArrElems xs) ++ "]")
  | .obj fs => some ("\x7b" ++ String.intercalate "," (jsonObjFields fs) ++ "\x7d")

def jsonArrElems : List JSValue → List String
  | [] => []
  | v :: vs =>
    (match jsonStringify v with
     | some s => s
     | none => "null") :: jsonArrElems vs

def jsonObjFields : List (String × JSValue) → List String
  | [] => []
  | (k, v) :: fs =>
    (match jsonStringify v with
     | some s => [jsonQuote k ++ ":" ++ s]
     | none => []) ++ jsonObjFields fs

end

/-- `JSON.stringify` at the call sites that only ever receive objects/arrays
(where the result is always a string). -/
def jsonStringifyD (v : JSValue) : String :=
  (jsonStringify v).getD "undefined"

/-- JavaScript `s.includes(pat)`. -/
def jsIncludes (s pat : String) : Bool :=
  decide (pat.toList <:+: s.toList)

/-- The corruption marker left by stringifying a plain object. -/
def objectMarker : String := "[object Object]"

/-- `v && typeof v === 'string'`: a truthy (hence non-empty) string. -/
def isTruthyStr : JSValue → Bool
  | .str s => decide (s ≠ "")
  | _ => false

/-- The object-shaped branch of the write-path answer cleaner
(`Questionnaire.create`, src/src/models/Questionnaire.js lines 47-63): tries
the properties `text`, `answer`, `value`, `label`, `name` in that order,
accepting the first truthy string, and otherwise falls back to `String(answer)`. -/
def cleanAnswerObjBranch (answer : JSValue) : JSValue :=
  if isTruthyStr (getF answer "text") then getF answer "text"
  else if isTruthyStr (getF answer "answer") then getF answer "answer"
  else if isTruthyStr (getF answer "value") then getF answer "value"
  else if isTruthyStr (getF answer "label") then getF answer "label"
  else if isTruthyStr (getF answer "name") then getF answer "name"
  else .str (jsToString answer)

/-- The write-path answer normalizer: the per-answer body of the
`Object.entries(answers).forEach` loop in `Questionnaire.create`
(src/src/models/Questionnaire.js lines 45-79): strings pass through, objects
go through `cleanAnswerObjBranch`, anything else is `String(answer)`-coerced;
a final guard re-coerces a non-string result.  `cleanAnswerCandidate` is the
candidate string before the corruption check; `cleanAnswerV` then replaces a
candidate containing `[object Object]` by `'Respuesta no válida'`. -/
def cleanAnswerCandidate (answer : JSValue) : String :=
  let t : JSValue :=
    if isStrV answer then answer
    else if truthy answer && isObjTypeof answer then cleanAnswerObjBranch answer
    else .str (jsToString answer)
  asStr (if isStrV t then t else .str (jsToString t))

def cleanAnswerV (answer : JSValue) : JSValue :=
  let s : String := cleanAnswerCandidate answer
  if jsIncludes s objectMarker then .str "Respuesta no válida" else .str s

/-- The object-shaped branch of the read-path answer extractor
(`processAnswerData`, src/frontend/src/components/AdminDashboard.tsx lines
449-471): doubly nested `answer.answer`, then the truthy properties `answer`,
`value`, `response`, `text` (each `String(...)`-coerced), then the first
non-null/non-undefined property value, then `JSON.stringify` of the whole
value. -/
def processAnswerObjBranch (a : JSValue) : JSValue :=
  if truthy (getF a "answer") && isObjTypeof (getF a "answer")
      && truthy (getF (getF a "answer") "answer") then
    .str (jsToString (getF (getF a "answer") "answer"))
  else if truthy (getF a "answer") then .str (jsToString (getF a "answer"))
  else if truthy (getF a "value") then .str (jsToString (getF a "value"))
  else if truthy (getF a "response") then .str (jsToString (getF a "response"))
  else if truthy (getF a "text") then .str (jsToString (getF a "text"))
  else
    match (objValues a).find? (fun v => !isNullish v) with
    | some fv => if truthy fv then .str (jsToString fv) else .str (jsonStringifyD a)
    | none => .str (jsonStringifyD a)

/-- The read-path answer extractor: the answer half of `processAnswerData`
(src/frontend/src/components/AdminDashboard.tsx lines 444-472):
null/undefined become `'Sin respuesta'`, strings pass through unchanged (no
corruption check), objects go through `processAnswerObjBranch`, anything
else is `String(...)`-coerced. -/
def processAnswerV (answerData : JSValue) : JSValue :=
  if isNullish answerData then .str "Sin respuesta"
  else if isStrV answerData then answerData
  else if isObjTypeof answerData then processAnswerObjBranch answerData
  else .str (jsToString answerData)

/-- One duck-typing extraction strategy over an object-shaped answer value
(the tagged variants of §9 of the design notes). -/
inductive Extract where
  | strField : String → Extract
  | coerceField : String → Extract
  | doubleNested : Extract
  | firstNonNull : Extract

/-- Run one extraction strategy; `none` means the strategy does not match. -/
def runExtract (e : Extract) (a : JSValue) : Option JSValue :=
  match e with
  | .strField nm => if isTruthyStr (getF a nm) then some (getF a nm) else none
  | .coerceField nm =>
    if truthy (getF a nm) then some (.str (jsToString (getF a nm))) else none
  | .doubleNested =>
    if truthy (getF a "answer") && isObjTypeof (getF a "answer")
        && truthy (getF (getF a "answer") "answer") then
      some (.str (jsToString (getF (getF a "answer") "answer")))
    else none
  | .firstNonNull =>
    match (objValues a).find? (fun v => !isNullish v) with
    | some fv => if truthy fv then some (.str (jsToString fv)) else none
    | none => none

/-- Run an ordered list of extraction strategies; first match wins. -/
def runExtracts : List Extract → JSValue → Option JSValue
  | [], _ => none
  | e :: es, a =>
    match runExtract e a with
    | some r => some r
    | none => runExtracts es a

/-- The write path's field precedence. -/
def writeOrder : List Extract :=
  [.strField "text", .strField "answer", .strField "value",
   .strField "label", .strField "name"]

/-- The read path's field precedence. -/
def readOrder : List Extract :=
  [.doubleNested, .coerceField "answer", .coerceField "value",
   .coerceField "response", .coerceField "text", .firstNonNull]

/-- Modelled from the spec: the single extraction precedence that claim C2
asserts both call sites share — (1) an `answer` property that is a string,
(2) a doubly nested `answer.answer` value, (3) `value`, (4) `response`,
(5) `text`, (6) `label` or `name`, (7) the first non-null/non-undefined
property value stringified, (8) the JSON serialization of the whole value.
This follows the spec's words, for comparison with the source definitions. -/
def specAnswerPrecedence (a : JSValue) : String :=
  match getF a "answer" with
  | .str s => s
  | nested =>
    match getF nested "answer" with
    | .str s => s
    | _ =>
      if !isNullish (getF a "value") then jsToString (getF a "value")
      else if !isNullish (getF a "response") then jsToString (getF a "response")
      else if !isNullish (getF a "text") then jsToString (getF a "text")
      else if !isNullish (getF a "label") then jsToString (getF a "label")
      else if !isNullish (getF a "name") then jsToString (getF a "name")
      else
        match (objValues a).find? (fun v => !isNullish v) with
        | some fv => jsToString fv
        | none => jsonStringifyD a

/-!
## Persistence model

JSON text columns are modelled by their parse outcome: `emptyText` is a
falsy column value (so `col || '\x7b\x7d'` parses to the empty object),
`jsonOf v` is text that `JSON.parse`s to `v`, and `malformed s` is text on
which `JSON.parse` throws.
-/

inductive StoredText where
  | emptyText : StoredText
  | jsonOf : JSValue → StoredText
  | malformed : String → StoredText
deriving Repr

/-- `JSON.parse(col || '\x7b\x7d')`: `none` models the thrown exception. -/
def parseStored : StoredText → Option JSValue
  | .emptyText => some (.obj [])
  | .jsonOf v => some v
  | .malformed _ => none

/-- One row of the `questionnaires` table. -/
structure Row where
  id : Nat
  userId : Option Nat
  qtype : String
  personal_info : StoredText
  answers : StoredText
  status : String
  createdAt : Nat
  updatedAt : Nat
deriving Repr

/-- One row of the `users` table. -/
structure User where
  id : Nat
  email : String
  role : String
deriving Repr

/-- The database: users and questionnaires in table order, plus the next ids
the store will assign. -/
structure DB where
  users : List User
  rows : List Row
  nextUserId : Nat
  nextQId : Nat
deriving Repr

/-- `SELECT id FROM users WHERE role = 'admin' LIMIT 1`. -/
def findAdmin (users : List User) : Option Nat :=
  (users.find? (fun u => u.role == "admin")).map (fun u => u.id)

/-- The `cleanAnswers` mapping built by `Questionnaire.create`
(src/src/models/Questionnaire.js lines 33-89): when `answers` is truthy and
object-typed, each entry of `Object.entries(answers)` is cleaned with the
write-path normalizer (arrays enumerate as index/value entries); otherwise
the mapping stays empty. -/
def cleanAnswersOf : JSValue → List (String × JSValue)
  | .obj entries => entries.map (fun p => (p.1, cleanAnswerV p.2))
  | .arr xs => (List.range xs.length).zip xs |>.map (fun p => (toString p.1, cleanAnswerV p.2))
  | _ => []

inductive CreateErr where
  | noSystemUser : CreateErr
deriving Repr

/-- The `finalUserId` resolution of `Questionnaire.create`: a present user id
is kept, an absent one is replaced by the first admin's id. -/
def resolveUserId (db : DB) : Option Nat → Option Nat
  | some u => some u
  | none => findAdmin db.users

/-- `Questionnaire.create` (src/src/models/Questionnaire.js lines 10-102):
an absent user id is resolved to the first admin user's id (error
`noSystemUser` when no admin exists, in which case nothing is inserted);
the answers are cleaned and the new row is inserted with both timestamps at
the current time while the caller receives the generated id. -/
def questionnaireCreate (now : Nat) (db : DB) (userId : Option Nat)
    (qtype : String) (pInfo : JSValue) (answers : JSValue) (completed : Bool) :
    Except CreateErr (DB × Nat) :=
  match resolveUserId db userId with
  | none => .error .noSystemUser
  | some uid =>
    let row : Row :=
      { id := db.nextQId
        userId := some uid
        qtype := qtype
        personal_info := .jsonOf pInfo
        answers := .jsonOf (.obj (cleanAnswersOf answers))
        status := if completed then "completed" else "pending"
        createdAt := now
        updatedAt := now }
    .ok ({ db with rows := db.rows ++ [row], nextQId := db.nextQId + 1 }, db.nextQId)

/-- The update payload of `Questionnaire.update`: `none` models an
absent/falsy field (which leaves the column untouched). -/
structure UpdateData where
  personalInfo : Option JSValue
  answers : Option JSValue
  completed : Option Bool

/-- The column assignments of `Questionnaire.update`
(src/src/models/Questionnaire.js lines 204-244) applied to the matched row:
a truthy `personalInfo`/`answers` payload is `JSON.stringify`-ed into its
column unchanged (no normalization), and only the `completed` branch also
refreshes `updated_at`. -/
def questionnaireUpdate (now : Nat) (d : UpdateData) (r : Row) : Row :=
  let r1 :=
    match d.personalInfo with
    | some piv => if truthy piv then { r with personal_info := .jsonOf piv } else r
    | none => r
  let r2 :=
    match d.answers with
    | some av => if truthy av then { r1 with answers := .jsonOf av } else r1
    | none => r1
  match d.completed with
  | some c =>
    { r2 with status := if c then "completed" else "pending", updatedAt := now }
  | none => r2

/-- The entries of a stored answers column once parsed (empty when the
column does not hold a JSON object). -/
def answersEntries (st : StoredText) : List (String × JSValue) :=
  match parseStored st with
  | some (.obj fs) => fs
  | _ => []

/-!
## PersonalInfo defaulting, repair sweep and admin listing
-/

/-- The six required personal-info fields. -/
def requiredFields : List String :=
  ["nombre", "apellidos", "edad", "genero", "correo", "orientacionSexual"]

/-- The per-field default: `nombre` → `Usuario`, `apellidos` → `Desconocido`,
all others → `N/A`. -/
def defaultFor (f : String) : String :=
  if f == "nombre" then "Usuario"
  else if f == "apellidos" then "Desconocido"
  else "N/A"

/-- The full default personal-info record substituted on a parse failure. -/
def fullDefaultPI : JSValue :=
  .obj [("nombre", .str "Usuario"), ("apellidos", .str "Desconocido"),
        ("edad", .str "N/A"), ("genero", .str "N/A"),
        ("correo", .str "N/A"), ("orientacionSexual", .str "N/A")]

/-- `v === ''`. -/
def isEmptyStrV : JSValue → Bool
  | .str s => s == ""
  | _ => false

/-- The per-field defaulting loop of the repair sweep
(POST /api/admin/fix-corrupted-data, src/unnamed/part_010): for each required
field, a falsy or empty-string value is overwritten with its default and the
row is flagged dirty. -/
def fillFields : List String → JSValue → Bool → JSValue × Bool
  | [], v, d => (v, d)
  | f :: fs, v, d =>
    if !truthy (getF v f) || isEmptyStrV (getF v f) then
      fillFields fs (setF v f (.str (defaultFor f))) true
    else
      fillFields fs v d

/-- The sweep's personal-info processing: parse failure substitutes the full
default record and flags the row dirty; the per-field loop then runs on the
result. -/
def sweepPersonalInfo (st : StoredText) : JSValue × Bool :=
  match parseStored st with
  | none => fillFields requiredFields fullDefaultPI true
  | some v => fillFields requiredFields v false

/-- The sweep's answers processing: parse failure, or a parsed record whose
`error` property equals `'Error parseando respuestas'`, is replaced by the
empty mapping and flagged dirty. -/
def sweepAnswers (st : StoredText) (d : Bool) : JSValue × Bool :=
  match parseStored st with
  | none => (.obj [], true)
  | some v =>
    if (match getF v "error" with
        | .str s => s == "Error parseando respuestas"
        | _ => false) then (.obj [], true)
    else (v, d)

/-- The per-row computation of the repair sweep: new personal info, new
answers, and the accumulated `needsUpdate` flag. -/
def sweepRowCompute (r : Row) : JSValue × JSValue × Bool :=
  let pi := sweepPersonalInfo r.personal_info
  let ans := sweepAnswers r.answers pi.2
  (pi.1, ans.1, ans.2)

/-- Whether the sweep flags a row dirty. -/
def rowDirty (r : Row) : Bool := (sweepRowCompute r).2.2

/-- The per-row effect of the repair sweep: a dirty row is written back with
the recomputed columns and `updated_at = NOW()`; a clean row receives no
write. -/
def sweepRow (now : Nat) (r : Row) : Row :=
  let c := sweepRowCompute r
  if c.2.2 then
    { r with personal_info := .jsonOf c.1, answers := .jsonOf c.2.1, updatedAt := now }
  else r

/-- The whole repair sweep (POST /api/admin/fix-corrupted-data): every stored
row is processed independently; the result is the new table together with
the reported `fixedCount`. -/
def sweepQuestionnaires (now : Nat) (rows : List Row) : List Row × Nat :=
  (rows.map (sweepRow now), (rows.filter rowDirty).length)

/-- The per-row processing of the admin listing
(GET /admin/questionnaires, src/src/routes/admin.js lines 171-190): both
columns are parsed inside one `try`; if either parse throws, `personalInfo`
falls back to `\x7bnombre: 'Usuario', apellidos: 'Desconocido'\x7d` and
`answers` to `\x7berror: 'Error parseando respuestas'\x7d`; on success both
parsed values are returned with no defaulting. -/
def adminListProcess (pi ans : StoredText) : JSValue × JSValue :=
  match parseStored pi, parseStored ans with
  | some pv, some av => (pv, av)
  | _, _ =>
    (.obj [("nombre", .str "Usuario"), ("apellidos", .str "Desconocido")],
     .obj [("error", .str "Error parseando respuestas")])

/-!
## Intake handlers
-/

inductive ApiError where
  | invalidType : ApiError
  | missingFields : List String → ApiError
  | missingData : ApiError
deriving Repr

inductive ApiResult where
  | created : DB → Nat → ApiResult
  | clientError : ApiError → ApiResult
  | serverError : ApiResult
deriving Repr

/-- `User.findByEmail` restricted to string emails (the handler passes
`personalInfo.correo` into the SQL parameter). -/
def findUserByEmail (users : List User) (email : String) : Option User :=
  users.find? (fun u => u.email == email)

/-- POST /api/questionnaires/start (src/unnamed/part_009): rejects a type
outside the enum, then rejects missing required personal-info fields, then
finds or creates the submitting user by email (new users get role
`assistant`) and creates the questionnaire with empty answers for that
user. -/
def startHandler (now : Nat) (db : DB) (qtype : String) (pInfo : JSValue) :
    ApiResult :=
  if !(["pareja", "personalidad"].contains qtype) then
    .clientError .invalidType
  else
    let missing := requiredFields.filter (fun f => !truthy (getF pInfo f))
    if missing ≠ [] then .clientError (.missingFields missing)
    else
      let email := asStr (getF pInfo "correo")
      let (db1, uid) :=
        match findUserByEmail db.users email with
        | some u => (db, u.id)
        | none =>
          ({ db with
              users := db.users ++ [{ id := db.nextUserId, email := email, role := "assistant" }]
              nextUserId := db.nextUserId + 1 },
           db.nextUserId)
      match questionnaireCreate now db1 (some uid) qtype pInfo (.obj []) false with
      | .ok (db2, qid) => .created db2 qid
      | .error _ => .serverError

/-- POST /api/questionnaires/sync (src/unnamed/part_009): logging dereferences
`personalInfo.*` and `Object.keys(answers)` before any validation, so a
nullish `personalInfo` or `answers` throws (500); the only validation is
`!type || !personalInfo || !personalInfo.correo` (400); the type is never
checked against the enum before `Questionnaire.create` runs with a null
user id. -/
def syncHandler (now : Nat) (db : DB) (qtype : JSValue) (pInfo : JSValue)
    (answers : JSValue) (completed : Bool) : ApiResult :=
  if isNullish pInfo || isNullish answers then .serverError
  else if !truthy qtype || !truthy pInfo || !truthy (getF pInfo "correo") then
    .clientError .missingData
  else
    match questionnaireCreate now db none (jsToString qtype) pInfo answers completed with
    | .ok (db2, qid) => .created db2 qid
    | .error _ => .serverError

/-!
## Helper lemmas
-/

theorem marker_not_in_invalid : jsIncludes "Respuesta no válida" objectMarker = false := by
  decide

/-- The write-path normalizer always yields a string value that is free of
the corruption marker. -/
theorem cleanAnswerV_isStr_clean (v : JSValue) :
    ∃ s, cleanAnswerV v = .str s ∧ jsIncludes s objectMarker = false := by
  unfold cleanAnswerV
  by_cases h : jsIncludes (cleanAnswerCandidate v) objectMarker = true
  · exact ⟨"Respuesta no válida", by simp [h], marker_not_in_invalid⟩
  · exact ⟨cleanAnswerCandidate v, by simp [h], by simpa using h⟩

/-- A marker-free string passes through the write-path normalizer unchanged. -/
theorem cleanAnswerV_str_clean (s : String)
    (h : jsIncludes s objectMarker = false) : cleanAnswerV (.str s) = .str s := by
  unfold cleanAnswerV cleanAnswerCandidate
  simp [isStrV, asStr, h]

/-- The read path's object branch always yields a string value. -/
theorem processAnswerObjBranch_isStr (a : JSValue) :
    ∃ s, processAnswerObjBranch a = .str s := by
  unfold processAnswerObjBranch
  repeat' split
  all_goals exact ⟨_, rfl⟩

/-- The read-path extractor always yields a string value. -/
theorem processAnswerV_isStr (v : JSValue) : ∃ s, processAnswerV v = .str s := by
  unfold processAnswerV
  by_cases h1 : isNullish v = true
  · exact ⟨"Sin respuesta", by simp [h1]⟩
  · by_cases h2 : isStrV v = true
    · cases v <;> simp_all [isStrV]
    · by_cases h3 : isObjTypeof v = true
      · obtain ⟨s, hs⟩ := processAnswerObjBranch_isStr v
        exact ⟨s, by simp [h1, h2, h3, hs]⟩
      · exact ⟨jsToString v, by simp [h1, h2, h3]⟩

/-- Strings pass through the read-path extractor unchanged. -/
theorem processAnswerV_str (s : String) : processAnswerV (.str s) = .str s := by
  unfold processAnswerV
  simp [isNullish, isStrV]

/-- Whether a value is an object (property assignment only has an observable
effect there). -/
def isObjV : JSValue → Bool
  | .obj _ => true
  | _ => false

theorem find_setAssoc_self (fs : List (String × JSValue)) (k : String) (w : JSValue) :
    (setAssoc fs k w).find? (fun p => p.1 == k) = some (k, w) := by
  induction fs with
  | nil => simp [setAssoc]
  | cons p rest ih =>
    by_cases h : p.1 == k
    · simp [setAssoc, h]
    · simp only [setAssoc, h, if_false, Bool.false_eq_true]
      rw [List.find?_cons_of_neg _ (by simpa using h)]
      exact ih

theorem find_setAssoc_other (fs : List (String × JSValue)) (g f : String) (w : JSValue)
    (h : (g == f) = false) :
    (setAssoc fs g w).find? (fun p => p.1 == f) = fs.find? (fun p => p.1 == f) := by
  induction fs with
  | nil => simp [setAssoc, h]
  | cons p rest ih =>
    by_cases hp : p.1 == g
    · have hpf : (p.1 == f) = false := by
        have : p.1 = g := by simpa using hp
        simpa [this] using h
      simp [setAssoc, hp, hpf, h]
    · by_cases hpf : p.1 == f
      · simp [setAssoc, hp, hpf]
      · simp only [setAssoc, hp, if_false, Bool.false_eq_true]
        rw [List.find?_cons_of_neg _ (by simpa using hpf),
            List.find?_cons_of_neg _ (by simpa using hpf)]
        exact ih

theorem getF_setF_self (fs : List (String × JSValue)) (k : String) (w : JSValue) :
    getF (setF (.obj fs) k w) k = w := by
  simp [setF, getF, find_setAssoc_self]

theorem getF_setF_other (v : JSValue) (g f : String) (w : JSValue) (h : f ≠ g) :
    getF (setF v g w) f = getF v f := by
  cases v <;> try rfl
  simp only [setF, getF]
  rw [find_setAssoc_other _ _ _ _ (by simpa using (Ne.symm h))]

theorem isObjV_setF (v : JSValue) (k : String) (w : JSValue) (h : isObjV v = true) :
    isObjV (setF v k w) = true := by
  cases v <;> simp_all [setF, isObjV]

theorem truthy_defaultFor (f : String) : truthy (.str (defaultFor f)) = true := by
  unfold defaultFor
  split_ifs <;> decide

/-- Fields outside the processed list are untouched by the defaulting loop. -/
theorem fillFields_preserve (l : List String) (v : JSValue) (d : Bool) (f : String)
    (hf : f ∉ l) : getF (fillFields l v d).1 f = getF v f := by
  induction l generalizing v d with
  | nil => rfl
  | cons g gs ih =>
    have hfg : f ≠ g := fun e => hf (e ▸ List.mem_cons_self g gs)
    have hfgs : f ∉ gs := fun m => hf (List.mem_cons_of_mem _ m)
    unfold fillFields
    split_ifs with hc
    · rw [ih _ _ hfgs, getF_setF_other _ _ _ _ hfg]
    · exact ih _ _ hfgs

/-- On an object, the defaulting loop leaves every processed field truthy. -/
theorem fillFields_truthy (l : List String) (v : JSValue) (d : Bool)
    (hobj : isObjV v = true) (hnd : l.Nodup) :
    ∀ f ∈ l, truthy (getF (fillFields l v d).1 f) = true := by
  induction l generalizing v d with
  | nil => intro f hf; cases hf
  | cons g gs ih =>
    have hg : g ∉ gs := (List.nodup_cons.mp hnd).1
    have hnd' : gs.Nodup := (List.nodup_cons.mp hnd).2
    intro f hf
    unfold fillFields
    split_ifs with hc
    · rcases List.mem_cons.mp hf with rfl | hmem
      · obtain ⟨fs, rfl⟩ : ∃ fs, v = .obj fs := by
          cases v <;> simp_all [isObjV]
        rw [fillFields_preserve gs _ true f hg, getF_setF_self]
        exact truthy_defaultFor f
      · exact ih (setF v g _) true (isObjV_setF _ _ _ hobj) hnd' f hmem
    · rcases List.mem_cons.mp hf with rfl | hmem
      · rw [fillFields_preserve gs v d f hg]
        exact (by simpa using hc : _ ∧ _).1
      · exact ih v d hobj hnd' f hmem

/-- Every value of the mapping built by the write-path cleaner is the output
of the write-path normalizer on some raw value. -/
theorem cleanAnswersOf_val (ans : JSValue) :
    ∀ p ∈ cleanAnswersOf ans, ∃ w, p.2 = cleanAnswerV w := by
  intro p hp
  cases ans <;> simp only [cleanAnswersOf] at hp
  case obj entries =>
    obtain ⟨q, _, rfl⟩ := List.mem_map.mp hp
    exact ⟨q.2, rfl⟩
  case arr xs =>
    obtain ⟨q, _, rfl⟩ := List.mem_map.mp hp
    exact ⟨q.2, rfl⟩
  all_goals exact absurd hp (List.not_mem_nil p)

/-!
## Claims
-/

/-- C1 (amended): every answers value persisted by `Questionnaire.create` is
a string free of the literal substring `[object Object]`; the `update`
operation, by contrast, persists the caller's answers verbatim without
normalization (see the counterexample). -/
theorem create_stored_answers_marker_free (now : Nat) (db : DB) (uid : Option Nat)
    (ty : String) (pInfo ans : JSValue) (c : Bool) (db' : DB) (qid : Nat)
    (h : questionnaireCreate now db uid ty pInfo ans c = .ok (db', qid)) :
    ∃ r, db'.rows = db.rows ++ [r] ∧
      ∀ p ∈ answersEntries r.answers,
        ∃ s, p.2 = .str s ∧ jsIncludes s objectMarker = false := by
  unfold questionnaireCreate at h
  cases hfa : resolveUserId db uid with
  | none =>
    rw [hfa] at h
    exact absurd h (by simp)
  | some uidv =>
    rw [hfa] at h
    simp only [Except.ok.injEq, Prod.mk.injEq] at h
    obtain ⟨hdb, -⟩ := h
    refine ⟨_, by rw [← hdb], ?_⟩
    intro p hp
    obtain ⟨w, hw⟩ := cleanAnswersOf_val ans p hp
    obtain ⟨s, hs, hclean⟩ := cleanAnswerV_isStr_clean w
    exact ⟨s, hw ▸ hs, hclean⟩

/-- Witness for C1: a concrete anonymous create whose only raw answer is an
object; the stored value is the sentinel, not `[object Object]`. -/
theorem create_stored_answers_marker_free_witness :
    ∃ r, (DB.mk [⟨1, "a@x", "admin"⟩]
        [⟨1, some 1, "pareja", .jsonOf (.obj []),
          .jsonOf (.obj [("0", .str "Respuesta no válida")]), "pending", 1, 1⟩] 2 2).rows =
      ([] : List Row) ++ [r] ∧
      ∀ p ∈ answersEntries r.answers,
        ∃ s, p.2 = .str s ∧ jsIncludes s objectMarker = false :=
  create_stored_answers_marker_free 1 ⟨[⟨1, "a@x", "admin"⟩], [], 2, 1⟩ none "pareja"
    (.obj []) (.obj [("0", .obj [("x", .num 1)])]) false _ 1 (by rfl)

/-- Counterexample to C1 as stated: `Questionnaire.update` persists an answers
mapping whose value is exactly the corruption marker. -/
theorem update_stores_marker :
    answersEntries (questionnaireUpdate 7
        ⟨none, some (.obj [("0", .str "[object Object]")]), none⟩
        ⟨1, some 1, "pareja", .jsonOf (.obj []), .jsonOf (.obj []), "pending", 0, 0⟩).answers =
      [("0", .str "[object Object]")] ∧
    jsIncludes "[object Object]" objectMarker = true :=
  ⟨rfl, by decide⟩

/-- C2 (amended): the two call sites implement two different precedences.
The write path tries `text`, `answer`, `value`, `label`, `name` (first truthy
string wins) with a `String(answer)` fallback; the read path tries the doubly
nested `answer.answer`, then `answer`, `value`, `response`, `text` (first
truthy value wins, `String(...)`-coerced), then the first non-null property
value, with a `JSON.stringify` fallback.  Each branch equals running its own
ordered strategy list. -/
theorem each_path_follows_own_precedence (a : JSValue) :
    cleanAnswerObjBranch a = (runExtracts writeOrder a).getD (.str (jsToString a)) ∧
    processAnswerObjBranch a = (runExtracts readOrder a).getD (.str (jsonStringifyD a)) := by
  constructor
  · simp only [writeOrder, runExtracts, runExtract, cleanAnswerObjBranch]
    split_ifs <;> rfl
  · simp only [readOrder, runExtracts, runExtract, processAnswerObjBranch]
    split_ifs <;> try rfl
    cases hf : (objValues a).find? (fun v => !isNullish v) <;> simp only [hf]
    · rfl
    · split_ifs <;> rfl

/-- Counterexample to C2 as stated: on `\x7banswer: "A", text: "T"\x7d` the
claimed shared precedence (rule 1: a string `answer` property) demands `"A"`,
the read path returns `"A"`, but the write path returns `"T"` because it
checks `text` first. -/
theorem write_path_breaks_claimed_precedence :
    cleanAnswerObjBranch (.obj [("answer", .str "A"), ("text", .str "T")]) = .str "T" ∧
    processAnswerObjBranch (.obj [("answer", .str "A"), ("text", .str "T")]) = .str "A" ∧
    specAnswerPrecedence (.obj [("answer", .str "A"), ("text", .str "T")]) = "A" ∧
    ("T" : String) ≠ "A" :=
  ⟨rfl, rfl, rfl, by decide⟩

/-- C3 (amended): the write-path normalizer discards a candidate containing
`[object Object]`, substitutes `'Respuesta no válida'`, and its output is
always a marker-free string; the read-path variant performs no such check
(see the counterexample). -/
theorem write_path_corruption_freedom (v : JSValue) :
    (jsIncludes (cleanAnswerCandidate v) objectMarker = true →
      cleanAnswerV v = .str "Respuesta no válida") ∧
    ∃ s, cleanAnswerV v = .str s ∧ jsIncludes s objectMarker = false := by
  constructor
  · intro h
    unfold cleanAnswerV
    simp [h]
  · exact cleanAnswerV_isStr_clean v

/-- Witness for C3: the empty object stringifies to the marker and the
write-path normalizer substitutes the sentinel. -/
theorem write_path_corruption_freedom_witness :
    jsIncludes (cleanAnswerCandidate (.obj [])) objectMarker = true ∧
    cleanAnswerV (.obj []) = .str "Respuesta no válida" :=
  ⟨by decide, (write_path_corruption_freedom (.obj [])).1 (by decide)⟩

/-- Counterexample to C3 as stated: the read-path variant returns a string
containing `[object Object]` unchanged instead of substituting the
sentinel. -/
theorem read_path_passes_marker_through :
    processAnswerV (.str "[object Object]") = .str "[object Object]" ∧
    jsIncludes "[object Object]" objectMarker = true :=
  ⟨rfl, by decide⟩

/-- C4 (amended): the /start intake path rejects a type outside
`\x7bpareja, personalidad\x7d` with the InvalidType error before anything
else runs, so no row is created; the /sync intake path performs no such
check (see the counterexample). -/
theorem start_rejects_invalid_type (now : Nat) (db : DB) (ty : String) (pInfo : JSValue)
    (h : (["pareja", "personalidad"].contains ty) = false) :
    startHandler now db ty pInfo = .clientError .invalidType := by
  unfold startHandler
  rw [h]
  rfl

/-- Witness for C4: the /start handler rejects `type = "invalid"`. -/
theorem start_rejects_invalid_type_witness :
    (["pareja", "personalidad"].contains "invalid") = false ∧
    startHandler 3 ⟨[], [], 1, 1⟩ "invalid" (.obj []) = .clientError .invalidType :=
  ⟨by decide, start_rejects_invalid_type 3 ⟨[], [], 1, 1⟩ "invalid" (.obj []) (by decide)⟩

/-- Counterexample to C4 as stated: the /sync intake path accepts
`type = "invalid"` and creates a row carrying that type instead of rejecting
with InvalidType. -/
theorem sync_accepts_invalid_type :
    syncHandler 3 ⟨[⟨1, "admin@x", "admin"⟩], [], 2, 1⟩ (.str "invalid")
        (.obj [("correo", .str "a@b.c")]) (.obj []) false =
      .created ⟨[⟨1, "admin@x", "admin"⟩],
        [⟨1, some 1, "invalid", .jsonOf (.obj [("correo", .str "a@b.c")]),
          .jsonOf (.obj []), "pending", 3, 3⟩], 2, 2⟩ 1 := by
  rfl

/-- C5 (amended): the maintenance sweep's defaulting replaces an unparseable
personal-info record by the full six-field default (flagging the row dirty)
and, when the record parses to an object, leaves every one of the six
required fields truthy (missing/empty fields defaulted per field); the
read/listing path applies a different rule — a two-field fallback on parse
failure and no per-field defaulting — see the counterexample. -/
theorem sweep_personal_info_defaulting (st : StoredText) :
    (parseStored st = none → sweepPersonalInfo st = (fullDefaultPI, true)) ∧
    (∀ fs, parseStored st = some (.obj fs) →
      ∀ f ∈ requiredFields, truthy (getF (sweepPersonalInfo st).1 f) = true) := by
  constructor
  · intro h
    unfold sweepPersonalInfo
    rw [h]
    rfl
  · intro fs h f hf
    unfold sweepPersonalInfo
    rw [h]
    exact fillFields_truthy requiredFields (.obj fs) false rfl (by decide) f hf

/-- Witness for C5: a partial record (spec's scenario 4) gets its missing
`edad` field defaulted by the sweep, and a malformed record is replaced by
the full default. -/
theorem sweep_personal_info_defaulting_witness :
    truthy (getF (sweepPersonalInfo (.jsonOf
      (.obj [("nombre", .str "Ana"), ("correo", .str "ana@x.com")]))).1 "edad") = true ∧
    sweepPersonalInfo (.malformed "not json") = (fullDefaultPI, true) :=
  ⟨(sweep_personal_info_defaulting
      (.jsonOf (.obj [("nombre", .str "Ana"), ("correo", .str "ana@x.com")]))).2
      [("nombre", .str "Ana"), ("correo", .str "ana@x.com")] rfl "edad" (by decide),
   (sweep_personal_info_defaulting (.malformed "not json")).1 rfl⟩

/-- Counterexample to C5 as stated: on the same unparseable stored record the
sweep produces a record whose `edad` is the truthy default, while the
read/listing path produces the two-field fallback whose `edad` is absent —
the two rules are not identical and the listing output misses required
fields. -/
theorem listing_defaulting_differs_from_sweep :
    truthy (getF (adminListProcess (.malformed "x") .emptyText).1 "edad") = false ∧
    truthy (getF (sweepPersonalInfo (.malformed "x")).1 "edad") = true :=
  ⟨rfl, rfl⟩

/-- C6 (amended): the read-path extractor returns the sentinel
`'Sin respuesta'` for null and undefined raw answers; the write-path (create)
normalizer instead returns their `String(...)` coercions `"null"` and
`"undefined"` — see the counterexample. -/
theorem null_answer_sentinel :
    processAnswerV .null = .str "Sin respuesta" ∧
    processAnswerV .undefined = .str "Sin respuesta" ∧
    cleanAnswerV .null = .str "null" ∧
    cleanAnswerV .undefined = .str "undefined" :=
  ⟨rfl, rfl, rfl, rfl⟩

/-- Counterexample to C6 as stated: the write-path normalizer maps a null
raw answer to `"null"`, not to the sentinel `'Sin respuesta'`. -/
theorem write_path_null_not_sentinel :
    cleanAnswerV .null = .str "null" ∧
    JSValue.str "null" ≠ .str "Sin respuesta" :=
  ⟨rfl, by
    intro h
    rw [JSValue.str.injEq] at h
    exact absurd h (by decide)⟩

/-- C7: both answer normalizers are total on every value shape — for every
input (null, undefined, string, number, boolean, record, nested record,
array) each returns a string value; no branch throws and none returns
null or an object. -/
theorem normalizers_total (v : JSValue) :
    (∃ s, cleanAnswerV v = .str s) ∧ ∃ t, processAnswerV v = .str t := by
  obtain ⟨s, hs, -⟩ := cleanAnswerV_isStr_clean v
  exact ⟨⟨s, hs⟩, processAnswerV_isStr v⟩

/-- C8: both answer normalizers are idempotent — feeding the output string
back in as a raw answer returns it unchanged; in particular already-clean
strings pass through unchanged. -/
theorem normalizers_idempotent (v : JSValue) :
    cleanAnswerV (cleanAnswerV v) = cleanAnswerV v ∧
    processAnswerV (processAnswerV v) = processAnswerV v := by
  constructor
  · obtain ⟨s, hs, hclean⟩ := cleanAnswerV_isStr_clean v
    rw [hs]
    exact cleanAnswerV_str_clean s hclean
  · obtain ⟨t, ht⟩ := processAnswerV_isStr v
    rw [ht]
    exact processAnswerV_str t

/-- C9: the repair sweep writes back exactly the rows it flags dirty — a row
not flagged dirty comes out of the sweep with every column identical (in
particular its `updatedAt` is not bumped), and a dirty row comes out with
`updatedAt` refreshed to the sweep time. -/
theorem sweep_conservation (now : Nat) (rows : List Row) :
    (sweepQuestionnaires now rows).1 = rows.map (sweepRow now) ∧
    ∀ r ∈ rows,
      (rowDirty r = false → sweepRow now r = r) ∧
      (rowDirty r = true → (sweepRow now r).updatedAt = now) := by
  refine ⟨rfl, ?_⟩
  intro r _
  unfold rowDirty sweepRow
  constructor
  · intro h
    simp [h]
  · intro h
    simp [h]

/-- Witness for C9: a concrete clean row is untouched by the sweep and a
concrete corrupted row gets its `updatedAt` refreshed. -/
theorem sweep_conservation_witness :
    sweepRow 9 ⟨1, some 1, "pareja", .jsonOf fullDefaultPI,
        .jsonOf (.obj [("0", .str "x")]), "pending", 0, 5⟩ =
      ⟨1, some 1, "pareja", .jsonOf fullDefaultPI,
        .jsonOf (.obj [("0", .str "x")]), "pending", 0, 5⟩ ∧
    (sweepRow 9 ⟨2, some 1, "pareja", .malformed "x", .emptyText,
        "pending", 0, 5⟩).updatedAt = 9 :=
  ⟨((sweep_conservation 9 [⟨1, some 1, "pareja", .jsonOf fullDefaultPI,
      .jsonOf (.obj [("0", .str "x")]), "pending", 0, 5⟩]).2 _ (by simp)).1 rfl,
   ((sweep_conservation 9 [⟨2, some 1, "pareja", .malformed "x", .emptyText,
      "pending", 0, 5⟩]).2 _ (by simp)).2 rfl⟩

/-- C10: a create call with no associated user id is attributed to the first
admin user's id (never null ownership), and it fails with the NoSystemUser
error exactly when no admin account exists, in which case no row is
inserted. -/
theorem anonymous_create_ownership (now : Nat) (db : DB) (ty : String)
    (pInfo ans : JSValue) (c : Bool) :
    (findAdmin db.users = none →
      questionnaireCreate now db none ty pInfo ans c = .error .noSystemUser) ∧
    (∀ a, findAdmin db.users = some a →
      ∃ db', questionnaireCreate now db none ty pInfo ans c = .ok (db', db.nextQId) ∧
        ∃ r, db'.rows = db.rows ++ [r] ∧ r.userId = some a) := by
  constructor
  · intro h
    unfold questionnaireCreate
    have : resolveUserId db none = none := h
    rw [this]
  · intro a h
    unfold questionnaireCreate
    have : resolveUserId db none = some a := h
    rw [this]
    exact ⟨_, rfl, _, rfl, rfl⟩

/-- Witness for C10: with no admin account an anonymous create fails with
NoSystemUser; with an admin of id 7 the created row is owned by user 7. -/
theorem anonymous_create_ownership_witness :
    questionnaireCreate 1 ⟨[], [], 1, 1⟩ none "pareja" (.obj []) (.obj []) false =
      .error .noSystemUser ∧
    ∃ db', questionnaireCreate 1 ⟨[⟨7, "x", "admin"⟩], [], 1, 1⟩ none "pareja"
        (.obj []) (.obj []) false = .ok (db', 1) ∧
      ∃ r, db'.rows = ([] : List Row) ++ [r] ∧ r.userId = some 7 :=
  ⟨(anonymous_create_ownership 1 ⟨[], [], 1, 1⟩ "pareja" (.obj []) (.obj []) false).1 rfl,
   (anonymous_create_ownership 1 ⟨[⟨7, "x", "admin"⟩], [], 1, 1⟩ "pareja"
      (.obj []) (.obj []) false).2 7 rfl⟩
